import Mathlib

/-!
Verification of the process-queue repository: a shallow embedding of
`src/priority-queue.js` and `src/concurrency-queue.js` (the PriorityQueue
store, the GenericQueue store, and the ConcurrencyQueue scheduler), with
theorems checking the natural-language specification against the code.

Conventions of the embedding:
* JS numbers that the code only ever uses as integers (priorities,
  timestamps, the `concurrent` option, counters) are modelled as `Int` or
  `Nat`.
* A JS value that may be `undefined` is modelled as an `Option`.
* A JS array used with `push`/`shift` is modelled as a `List` (append at
  the tail, remove at the head).
* `Date.now()` is an ambient input: functions that read it take a `now`
  argument.
-/

namespace ProcessQueue

/-! ## PriorityQueue (src/priority-queue.js) -/

/-- The `options` record stored with each queued item:
`{ enqueuedTime: Date.now(), priority: 0 }` overridden by the caller's
options bag (`Object.assign(defaultOptions, opts)`). -/
structure PQOptions where
  priority : Int
  enqueuedTime : Int
deriving DecidableEq, Repr

/-- One element of `PriorityQueue._queue`: the record
`{ item, options }` pushed by `enqueue`. -/
structure PQEntry (α : Type) where
  item : α
  options : PQOptions
deriving DecidableEq, Repr

/-- The caller's options bag for `enqueue(item, opts)`; a field is `none`
when the caller's object does not carry that property, in which case
`Object.assign` keeps the default. -/
structure PQEnqueueOpts where
  priority : Option Int := none
  enqueuedTime : Option Int := none
deriving DecidableEq, Repr

/-- The `sort` constant object of src/priority-queue.js:
`{ doNotMove: 0, moveCloserToStart: -1, moveCloserToEnd: 1 }`.
Note it has no `moveCloserToFront` property: reading
`sort.moveCloserToFront` in JS yields `undefined`, modelled below as
`none`. -/
structure SortDirections where
  doNotMove : Int
  moveCloserToStart : Int
  moveCloserToEnd : Int
deriving DecidableEq, Repr

def sortDirections : SortDirections :=
  { doNotMove := 0, moveCloserToStart := -1, moveCloserToEnd := 1 }

/-- `higherMovesTowardsFront(a, b)` from src/priority-queue.js. The code
returns `sort.moveCloserToFront` when `a > b`, but the `sort` object has
no such property, so the JS value returned is `undefined` (`none`). -/
def higherMovesTowardsFront (a b : Int) : Option Int :=
  if a == b then some sortDirections.doNotMove
  else if a > b then none
  else some sortDirections.moveCloserToEnd

/-- `lowerMovesTowardsFront(a, b)` from src/priority-queue.js; as above,
`sort.moveCloserToFront` is `undefined` (`none`). -/
def lowerMovesTowardsFront (a b : Int) : Option Int :=
  if a == b then some sortDirections.doNotMove
  else if a < b then none
  else some sortDirections.moveCloserToEnd

/-- The comparator `priorityAndEnqueuedTime` of src/priority-queue.js,
destructuring the `options` of both entries. -/
def priorityAndEnqueuedTime {α : Type} (a b : PQEntry α) : Option Int :=
  if a.options.priority != b.options.priority then
    higherMovesTowardsFront a.options.priority b.options.priority
  else
    lowerMovesTowardsFront a.options.enqueuedTime b.options.enqueuedTime

/-- ECMAScript `SortCompare`: the comparator's result is coerced with
`ToNumber` and a `NaN` result is treated as `+0`; in particular a
comparator that returns `undefined` contributes `0`. -/
def sortCompare {α : Type} (c : α → α → Option Int) (a b : α) : Int :=
  (c a b).getD 0

/-- Stable insertion of `pivot` into an already-processed prefix, as done
by the binary-insertion runs of the engines' `Array.prototype.sort`
(e.g. V8 TimSort for short arrays): `pivot` is placed before the first
element `e` with `cmp pivot e < 0` and after every element compared
non-negatively. -/
def jsInsert {α : Type} (cmp : α → α → Int) (pivot : α) : List α → List α
  | [] => [pivot]
  | e :: rest =>
    if cmp pivot e < 0 then pivot :: e :: rest else e :: jsInsert cmp pivot rest

/-- Model of `Array.prototype.sort(cmp)` on short arrays: a stable
insertion sort processing the array left to right, exactly the
binary-insertion pass ECMAScript engines use below the TimSort run
threshold. -/
def jsSortShort {α : Type} (cmp : α → α → Int) (l : List α) : List α :=
  l.foldl (fun acc x => jsInsert cmp x acc) []

/-- `PriorityQueue`: `this._queue = []; this._isSortOutOfDate = false;`. -/
structure PriorityQueue (α : Type) where
  _queue : List (PQEntry α)
  _isSortOutOfDate : Bool
deriving DecidableEq, Repr

namespace PriorityQueue

def empty {α : Type} : PriorityQueue α := { _queue := [], _isSortOutOfDate := false }

def size {α : Type} (q : PriorityQueue α) : Nat := q._queue.length

/-- `_sort()`: sort `_queue` with `priorityAndEnqueuedTime` and clear the
dirty flag. -/
def _sort {α : Type} (q : PriorityQueue α) : PriorityQueue α :=
  { _queue := jsSortShort (sortCompare priorityAndEnqueuedTime) q._queue,
    _isSortOutOfDate := false }

/-- `enqueue(item, opts)`: push `{ item, options }` where `options` is
`Object.assign({ enqueuedTime: Date.now(), priority: 0 }, opts)`, and mark
the sort as out of date. -/
def enqueue {α : Type} (q : PriorityQueue α) (item : α) (opts : PQEnqueueOpts)
    (now : Int) : PriorityQueue α :=
  { _queue := q._queue ++
      [{ item := item,
         options := { priority := opts.priority.getD 0,
                      enqueuedTime := opts.enqueuedTime.getD now } }],
    _isSortOutOfDate := true }

/-- `dequeue()`: sort if out of date, then `shift` the first entry and
return its `item`, or `undefined` (`none`) when empty. -/
def dequeue {α : Type} (q : PriorityQueue α) : Option α × PriorityQueue α :=
  let q := if q._isSortOutOfDate then q._sort else q
  match q._queue with
  | [] => (none, q)
  | e :: rest => (some e.item, { _queue := rest, _isSortOutOfDate := q._isSortOutOfDate })

end PriorityQueue

/-- Drain a priority queue by repeated `dequeue`, collecting the returned
items (fuel-bounded by the size). -/
def drainPQ {α : Type} : Nat → PriorityQueue α → List α
  | 0, _ => []
  | n + 1, q =>
    match q.dequeue with
    | (none, _) => []
    | (some x, q) => x :: drainPQ n q

/-! ## GenericQueue (src/concurrency-queue.js) -/

/-- `GenericQueue`: a minimal FIFO store, `this._queue = []`. -/
structure GenericQueue (α : Type) where
  _queue : List α
deriving DecidableEq, Repr

namespace GenericQueue

def empty {α : Type} : GenericQueue α := { _queue := [] }

def size {α : Type} (q : GenericQueue α) : Nat := q._queue.length

/-- `enqueue (...args) { this._queue.push(...args) }`: every argument of
the variadic call is appended, in call order. -/
def enqueue {α : Type} (q : GenericQueue α) (args : List α) : GenericQueue α :=
  { _queue := q._queue ++ args }

/-- `dequeue () { return this._queue.shift(); }`. -/
def dequeue {α : Type} (q : GenericQueue α) : Option α × GenericQueue α :=
  (q._queue.head?, { _queue := q._queue.tail })

end GenericQueue

/-- The JS call `priorityQueue.enqueue(...tasks)` made by
`ConcurrencyQueue.enqueue` when the backing store is `PriorityQueue`:
the first task binds the `item` parameter, the second task (a function)
binds the `opts` parameter, and further tasks are dropped. A function
value has no enumerable `priority`/`enqueuedTime` own properties, so
`Object.assign(defaultOptions, opts)` leaves the defaults in place,
which is the empty options bag. -/
def enqueueSpreadPQ {α : Type} (q : PriorityQueue α) (task : α) (_rest : List α)
    (now : Int) : PriorityQueue α :=
  q.enqueue task {} now

/-! ## Event subscriptions (src/concurrency-queue.js) -/

/-- `ConcurrencyQueue.EventType = { idle: 'idle', error: 'error' }`. -/
inductive EventType where
  | idle
  | error
deriving DecidableEq, Repr

/-- One element of `this._subscriptions`: the `{ event, handler }` record
pushed by `on`. Handlers are compared by JS reference identity, modelled
by a `Nat` identity. -/
structure Subscription where
  event : EventType
  handler : Nat
deriving DecidableEq, Repr

/-- `on(event, handler)`: push `{ event, handler }`. -/
def onFn (subs : List Subscription) (event : EventType) (handler : Nat) :
    List Subscription :=
  subs ++ [{ event := event, handler := handler }]

/-- `off(event, handler)` exactly as written in src/concurrency-queue.js:
`this._subscriptions = this._subscriptions.filter((subscription) =>
subscription.event == event && subscription.handler == handler)` —
i.e. the filter KEEPS the matching subscriptions. -/
def offFn (subs : List Subscription) (event : EventType) (handler : Nat) :
    List Subscription :=
  subs.filter (fun s => s.event == event && s.handler == handler)

/-- The subscription list `off` would have to produce for the spec's
"removes matching registrations": keep exactly the non-matching ones.
(Spec-side definition, for comparison with `offFn`.) -/
def offSpec (subs : List Subscription) (event : EventType) (handler : Nat) :
    List Subscription :=
  subs.filter (fun s => !(s.event == event && s.handler == handler))

/-- The handlers `_emit(event, ...)` invokes, in order: the handlers of
the subscriptions whose `event` matches. -/
def emitHandlers (subs : List Subscription) (event : EventType) : List Nat :=
  (subs.filter (fun s => s.event == event)).map (fun s => s.handler)

/-! ## ConcurrencyQueue scheduler (src/concurrency-queue.js)

The scheduler is modelled as a labelled transition system. A consumer's
`handle` closure is pushed onto `_pending` at spawn time and runs later
(`setTimeout`); a returned promise settles later still. These suspension
points are the transitions `fireConsumer` and `settleConsumer`; the
synchronous bodies of `enqueue`/`start`/`stop`/`on`/`off`/
`_spawnConsumer`/`_terminateConsumer` are state functions. -/

/-- The possible values a task returns when it does not throw:
an instance of the configured `options.Promise` (settling later with
`rejects` telling whether it rejects), a thenable object that is not an
instance of `options.Promise`, or a plain non-thenable value. -/
inductive Returned where
  | promiseInstance (rejects : Bool)
  | thenable
  | plain
deriving DecidableEq, Repr

/-- Whether a value is an object exposing a `.then` continuation-accepting
method (the structural awaitable capability described by the spec). -/
def hasThenMethod : Returned → Bool
  | .promiseInstance _ => true
  | .thenable => true
  | .plain => false

/-- The test the code performs in `handle`:
`returned instanceof this.options.Promise`. A thenable that is not an
instance of the configured promise class fails this test. -/
def instanceofOptionsPromise : Returned → Bool
  | .promiseInstance _ => true
  | .thenable => false
  | .plain => false

/-- What a task does when invoked: throw synchronously, or return a
value. -/
inductive TaskBehavior where
  | throws
  | returns (v : Returned)
deriving DecidableEq, Repr

/-- Where a spawned consumer stands: its `handle` is scheduled by
`setTimeout` and has not run yet, or it has run, returned an
`options.Promise` instance, and is awaiting its settlement. -/
inductive Phase where
  | scheduled
  | awaiting
deriving DecidableEq, Repr

/-- One element of `this._pending`: the `handle` closure of a spawned
consumer, together with the task it dequeued. -/
structure Consumer where
  behavior : TaskBehavior
  phase : Phase
deriving DecidableEq, Repr

/-- The scheduler configuration the transitions read:
`this.options.concurrent` (a JS number, here `Int` so that non-positive
misconfigurations are representable). -/
structure CQConfig where
  concurrent : Int
deriving DecidableEq, Repr

/-- `Object.assign({}, ConcurrencyQueue.defaults, options)` restricted to
the `concurrent` option: the caller's value when supplied, else the
default `5`. No clamping and no validation is performed. -/
def mkOptions (given : Option Int) : CQConfig :=
  { concurrent := given.getD 5 }

/-- The mutable state of a `ConcurrencyQueue` backed by the default
`GenericQueue` (whose `_queue` array is the `queue` list): the store, the
`_pending` array of consumers, `_isRunning`, `_subscriptions`, the
directly tracked counters `completed`/`failed`, and a log of the events
passed to `_emit` (in emission order). `stats.queued` is
`queue.length`, `stats.pending` is `pending.length`. -/
structure CQState where
  queue : List TaskBehavior
  pending : List Consumer
  isRunning : Bool
  subscriptions : List Subscription
  completed : Nat
  failed : Nat
  events : List EventType
deriving DecidableEq, Repr

namespace CQState

/-- `get isEmpty () { return this.stats.queued == 0; }` -/
def isEmpty (s : CQState) : Bool := s.queue.length == 0

/-- `get isIdle () { return this.stats.queued == 0 && this.stats.pending == 0; }` -/
def isIdle (s : CQState) : Bool := s.queue.length == 0 && s.pending.length == 0

/-- `stats.total`: queued + pending + completed + failed. -/
def total (s : CQState) : Nat :=
  s.queue.length + s.pending.length + s.completed + s.failed

end CQState

/-- `_emit(event, ...)`: the event is recorded in the emission log (its
handlers, read off by `emitHandlers`, run synchronously). -/
def emitFn (s : CQState) (e : EventType) : CQState :=
  { s with events := s.events ++ [e] }

/-- `_spawnConsumer()`: return unless running and non-empty; dequeue one
task; push its `handle` onto `_pending` and schedule it with
`setTimeout`. -/
def spawnConsumer (s : CQState) : CQState :=
  if !s.isRunning || s.isEmpty then s
  else
    match s.queue with
    | [] => s
    | t :: rest =>
      { s with queue := rest,
               pending := s.pending ++ [{ behavior := t, phase := .scheduled }] }

/-- The `for` loop of `start()`: run `_spawnConsumer()` a fixed number of
times. -/
def startLoop : Nat → CQState → CQState
  | 0, s => s
  | n + 1, s => startLoop n (spawnConsumer s)

/-- `start()`: set `_isRunning`; return if empty; spawn
`Math.min(this.options.concurrent - this.stats.pending, this.stats.queued)`
consumers (none when that quantity is not positive). -/
def startFn (cfg : CQConfig) (s : CQState) : CQState :=
  let s := { s with isRunning := true }
  if s.isEmpty then s
  else startLoop (min (cfg.concurrent - s.pending.length) (s.queue.length : Int)).toNat s

/-- `enqueue (...args)`: forward every argument to the store's `enqueue`,
then `if (this.isRunning) { this.start(); }`. -/
def enqueueFn (cfg : CQConfig) (s : CQState) (tasks : List TaskBehavior) : CQState :=
  let s := { s with queue := s.queue ++ tasks }
  if s.isRunning then startFn cfg s else s

/-- `stop()`: `this._isRunning = false;` and nothing else. -/
def stopFn (s : CQState) : CQState := { s with isRunning := false }

/-- `on(event, handler)` on the scheduler state. -/
def cqOn (s : CQState) (e : EventType) (h : Nat) : CQState :=
  { s with subscriptions := onFn s.subscriptions e h }

/-- `off(event, handler)` on the scheduler state. -/
def cqOff (s : CQState) (e : EventType) (h : Nat) : CQState :=
  { s with subscriptions := offFn s.subscriptions e h }

/-- `_terminateConsumer(jobDidFail, handler)` where `i` is the index of
`handler` in `_pending`: splice the handler out, increment `failed` or
`completed`, then emit `idle` if idle, else `_spawnConsumer()`. Note the
code checks `this.isIdle` only — not `this.isRunning`. -/
def terminateConsumer (s : CQState) (i : Nat) (jobDidFail : Bool) : CQState :=
  let s := { s with pending := s.pending.eraseIdx i }
  let s := if jobDidFail then { s with failed := s.failed + 1 }
           else { s with completed := s.completed + 1 }
  if s.isIdle then emitFn s .idle
  else spawnConsumer s

/-- The scheduled `handle` of the consumer at index `i` runs
(`setTimeout` fires): invoke the task; on a synchronous throw emit
`error` then proceed as failure; on a returned `options.Promise`
instance attach `.then`/`.catch` and wait; on any other returned value
proceed immediately as success. A missing or already-running consumer
leaves the state unchanged. -/
def fireConsumer (s : CQState) (i : Nat) : CQState :=
  match s.pending.get? i with
  | none => s
  | some c =>
    if c.phase != Phase.scheduled then s
    else
      match c.behavior with
      | .throws => terminateConsumer (emitFn s .error) i true
      | .returns v =>
        if instanceofOptionsPromise v then
          { s with pending := s.pending.set i { behavior := c.behavior, phase := .awaiting } }
        else
          terminateConsumer s i false

/-- The promise returned by the consumer at index `i` settles: on
resolution proceed as success; on rejection emit `error` then proceed as
failure. Only a consumer awaiting an `options.Promise` instance can
settle. -/
def settleConsumer (s : CQState) (i : Nat) : CQState :=
  match s.pending.get? i with
  | none => s
  | some c =>
    match c.phase, c.behavior with
    | .awaiting, .returns (.promiseInstance rejects) =>
      if rejects then terminateConsumer (emitFn s .error) i true
      else terminateConsumer s i false
    | _, _ => s

/-- The state built by the constructor before any call: empty store, no
pending consumers, no subscriptions, zeroed counters; `start()` is called
when `autoStart` is set (on the empty store it only sets `_isRunning`). -/
def emptyState : CQState :=
  { queue := [], pending := [], isRunning := false, subscriptions := [],
    completed := 0, failed := 0, events := [] }

/-- `new ConcurrencyQueue(options)`: initial fields, then `start()` when
`options.autoStart` holds. -/
def constructorState (cfg : CQConfig) (autoStart : Bool) : CQState :=
  if autoStart then startFn cfg emptyState else emptyState

/-- The states a `ConcurrencyQueue` can reach: the constructor state
followed by any interleaving of the public calls `enqueue`/`start`/
`stop`/`on`/`off` and of the asynchronous callbacks (a scheduled `handle`
firing, a returned promise settling). -/
inductive Reach (cfg : CQConfig) : CQState → Prop where
  | init (autoStart : Bool) : Reach cfg (constructorState cfg autoStart)
  | enqueue {s : CQState} (tasks : List TaskBehavior) :
      Reach cfg s → Reach cfg (enqueueFn cfg s tasks)
  | start {s : CQState} : Reach cfg s → Reach cfg (startFn cfg s)
  | stop {s : CQState} : Reach cfg s → Reach cfg (stopFn s)
  | onCall {s : CQState} (e : EventType) (h : Nat) : Reach cfg s → Reach cfg (cqOn s e h)
  | offCall {s : CQState} (e : EventType) (h : Nat) : Reach cfg s → Reach cfg (cqOff s e h)
  | fire {s : CQState} (i : Nat) : Reach cfg s → Reach cfg (fireConsumer s i)
  | settle {s : CQState} (i : Nat) : Reach cfg s → Reach cfg (settleConsumer s i)

/-! ## The completion latch (`proceed` in `_spawnConsumer`)

`proceed` is the consumer-local completion callback: it is guarded by
`proceed.hasBeenCalled`, and on its first call it runs
`_terminateConsumer`, which increments exactly one of the
`failed`/`completed` counters. The latch-relevant projection of the
state is the flag plus the two counters. -/

/-- The consumer-local latch state: `proceed.hasBeenCalled` plus the two
counters `_terminateConsumer` increments. -/
structure ProceedState where
  hasBeenCalled : Bool
  completed : Nat
  failed : Nat
deriving DecidableEq, Repr

/-- One call `proceed(wasError)`: a no-op once `hasBeenCalled` is set;
otherwise set the flag and perform `_terminateConsumer`'s counter
increment (`this.stats[jobDidFail ? 'failed' : 'completed'] += 1`). -/
def proceedCall (s : ProceedState) (wasError : Bool) : ProceedState :=
  if s.hasBeenCalled then s
  else
    { hasBeenCalled := true,
      completed := if wasError then s.completed else s.completed + 1,
      failed := if wasError then s.failed + 1 else s.failed }

/-- The ways one consumer invocation (`handle`) can play out, assuming a
returned promise eventually settles. -/
inductive InvocationOutcome where
  | syncThrow
  | syncReturn
  | asyncResolve (thenCallbackThrew : Bool)
  | asyncReject
deriving DecidableEq, Repr

/-- The sequence of `proceed(wasError)` calls `handle` produces, in
order, for each way the invocation can play out:
* a synchronous throw calls `proceed(true)` once;
* a non-promise return calls `proceed(false)` once;
* a resolved promise runs `.then(() => proceed(false))`; if that
  callback itself throws (e.g. an `idle` handler throws inside
  `_terminateConsumer`), the chained `.catch` fires and calls
  `proceed(true)` as well;
* a rejected promise calls `proceed(true)` once from `.catch`. -/
def completionSignals : InvocationOutcome → List Bool
  | .syncThrow => [true]
  | .syncReturn => [false]
  | .asyncResolve thenCallbackThrew => if thenCallbackThrew then [false, true] else [false]
  | .asyncReject => [true]

/-- Feed a sequence of completion signals through the latch. -/
def runSignals (s : ProceedState) (sigs : List Bool) : ProceedState :=
  sigs.foldl proceedCall s

/-- What `handle` decides to do with the outcome of `task()`: call
`proceed` synchronously (with the error flag), or register
`.then`/`.catch` continuations and wait for settlement. -/
inductive HandleAction where
  | terminate (wasError : Bool)
  | awaitSettlement
deriving DecidableEq, Repr

/-- The classification-and-dispatch logic of `handle` in
`_spawnConsumer`: a synchronous throw proceeds as failure; a returned
value is awaited when `returned instanceof this.options.Promise` and
otherwise proceeds immediately as success. -/
def handleClassify (r : Except Unit Returned) : HandleAction :=
  match r with
  | .error _ => .terminate true
  | .ok v => if instanceofOptionsPromise v then .awaitSettlement else .terminate false

/-- The number of consumers the `for` loop of `start()` spawns:
`Math.min(this.options.concurrent - this.stats.pending, this.stats.queued)`
iterations while positive. -/
def spawnCount (cfg : CQConfig) (s : CQState) : Nat :=
  (min (cfg.concurrent - s.pending.length) (s.queue.length : Int)).toNat

/-- A freshly spawned consumer: its `handle` is scheduled via
`setTimeout`. -/
def mkScheduled (t : TaskBehavior) : Consumer :=
  { behavior := t, phase := .scheduled }

/-! ## Helper lemmas -/

lemma startLoop_spec : ∀ (n : Nat) (s : CQState), s.isRunning = true →
    n ≤ s.queue.length →
    startLoop n s =
      { s with queue := s.queue.drop n,
               pending := s.pending ++ (s.queue.take n).map mkScheduled }
  | 0, s, _, _ => by simp [startLoop]
  | n + 1, s, hrun, hn => by
    match hq : s.queue with
    | [] => rw [hq] at hn; simp at hn
    | t :: rest =>
      have hstep : spawnConsumer s =
          { s with queue := rest, pending := s.pending ++ [mkScheduled t] } := by
        simp [spawnConsumer, CQState.isEmpty, hrun, hq, mkScheduled]
      have hn2 : n ≤ rest.length := by
        rw [hq] at hn; simpa using Nat.le_of_succ_le_succ hn
      have hrec := startLoop_spec n
        { s with queue := rest, pending := s.pending ++ [mkScheduled t] }
        (by exact hrun) (by exact hn2)
      rw [startLoop, hstep, hrec]
      simp [List.append_assoc]

lemma startFn_spec (cfg : CQConfig) (s : CQState) :
    startFn cfg s =
      { s with isRunning := true,
               queue := s.queue.drop (spawnCount cfg s),
               pending := s.pending ++ (s.queue.take (spawnCount cfg s)).map mkScheduled } := by
  unfold startFn
  by_cases hq : s.queue.length = 0
  · have hk : spawnCount cfg s = 0 := by
      unfold spawnCount; omega
    have hqe : s.queue = [] := List.length_eq_zero.mp hq
    simp [CQState.isEmpty, hq, hk, hqe]
  · have hk : spawnCount cfg s ≤ s.queue.length := by
      unfold spawnCount; omega
    have := startLoop_spec (spawnCount cfg s) { s with isRunning := true } rfl (by simpa using hk)
    simp only [CQState.isEmpty]
    rw [if_neg (by simpa using hq)]
    unfold spawnCount at this ⊢
    simpa using this

lemma spawnConsumer_pending_le (s : CQState) :
    (spawnConsumer s).pending.length ≤ s.pending.length + 1 := by
  unfold spawnConsumer
  split
  · omega
  · match hq : s.queue with
    | [] => simp
    | t :: rest => simp

lemma terminateConsumer_pending_le_succ (s : CQState) (i : Nat) (b : Bool) :
    (terminateConsumer s i b).pending.length ≤ (s.pending.eraseIdx i).length + 1 := by
  simp only [terminateConsumer]
  cases b
  all_goals
    simp only [if_true, Bool.false_eq_true, if_false]
    split
    case isTrue => simp [emitFn]
    case isFalse => exact le_trans (spawnConsumer_pending_le _) (by simp)

lemma terminateConsumer_pending_le (s : CQState) (i : Nat) (b : Bool)
    (hi : i < s.pending.length) :
    (terminateConsumer s i b).pending.length ≤ s.pending.length := by
  have h1 := terminateConsumer_pending_le_succ s i b
  have herase : (s.pending.eraseIdx i).length = s.pending.length - 1 :=
    List.length_eraseIdx_of_lt hi
  omega

lemma get?_lt_length {α : Type} {l : List α} {i : Nat} {a : α}
    (h : l.get? i = some a) : i < l.length := by
  by_contra hc
  rw [List.get?_eq_none.mpr (Nat.le_of_not_lt hc)] at h
  exact Option.noConfusion h

lemma fireConsumer_pending_le (s : CQState) (i : Nat) :
    (fireConsumer s i).pending.length ≤ s.pending.length := by
  unfold fireConsumer
  match hg : s.pending.get? i with
  | none => exact le_refl _
  | some c =>
    have hi : i < s.pending.length := get?_lt_length hg
    obtain ⟨beh, ph⟩ := c
    cases ph
    case awaiting => simp
    case scheduled =>
      cases beh
      case throws =>
        simp only [bne_self_eq_false, Bool.false_eq_true, if_false]
        exact terminateConsumer_pending_le (emitFn s .error) i true hi
      case returns v =>
        simp only [bne_self_eq_false, Bool.false_eq_true, if_false]
        cases v
        case promiseInstance rejects => simp [instanceofOptionsPromise]
        case thenable =>
          simpa [instanceofOptionsPromise] using terminateConsumer_pending_le s i false hi
        case plain =>
          simpa [instanceofOptionsPromise] using terminateConsumer_pending_le s i false hi

lemma settleConsumer_pending_le (s : CQState) (i : Nat) :
    (settleConsumer s i).pending.length ≤ s.pending.length := by
  unfold settleConsumer
  match hg : s.pending.get? i with
  | none => exact le_refl _
  | some c =>
    have hi : i < s.pending.length := get?_lt_length hg
    obtain ⟨beh, ph⟩ := c
    cases ph
    case scheduled => cases beh <;> simp
    case awaiting =>
      cases beh
      case throws => exact le_refl _
      case returns v =>
        cases v
        case promiseInstance rejects =>
          cases rejects
          case false =>
            simp only [Bool.false_eq_true, if_false]
            exact terminateConsumer_pending_le s i false hi
          case true =>
            simp only [if_true]
            exact terminateConsumer_pending_le (emitFn s .error) i true hi
        case thenable => exact le_refl _
        case plain => exact le_refl _

lemma startFn_pending_le (cfg : CQConfig) (s : CQState)
    (h : (s.pending.length : Int) ≤ cfg.concurrent) :
    ((startFn cfg s).pending.length : Int) ≤ cfg.concurrent := by
  rw [startFn_spec]
  simp only [List.length_append, List.length_map, List.length_take]
  have : spawnCount cfg s ≤ (cfg.concurrent - s.pending.length).toNat := by
    unfold spawnCount; omega
  omega

lemma startFn_noSpawn (cfg : CQConfig) (s : CQState) (hc : cfg.concurrent ≤ 0)
    (hp : s.pending = []) :
    startFn cfg s = { s with isRunning := true } := by
  rw [startFn_spec]
  have hk : spawnCount cfg s = 0 := by
    unfold spawnCount; rw [hp]; simp; omega
  simp [hk]

/-! ## Claim theorems -/

/-- Claim C1: every consumer invocation increments exactly one of the
`completed`/`failed` counters exactly once. Whatever sequence of
completion signals a single `handle` invocation can produce — one signal
for a synchronous throw, a synchronous non-promise return, a resolution
or a rejection, and the resolve-then-reject double signal when the
`.then` callback itself throws — the `proceed.hasBeenCalled` latch lets
only the first signal through: `completed + failed` grows by exactly one,
and the incremented counter is decided by the first signal; all later
signals are ignored. -/
theorem consumer_completion_exactly_once (o : InvocationOutcome) (s : ProceedState)
    (h : s.hasBeenCalled = false) :
    (runSignals s (completionSignals o)).completed + (runSignals s (completionSignals o)).failed
        = s.completed + s.failed + 1 ∧
    ((runSignals s (completionSignals o)).failed = s.failed + 1 ↔
        (completionSignals o).head? = some true) ∧
    ((runSignals s (completionSignals o)).completed = s.completed + 1 ↔
        (completionSignals o).head? = some false) := by
  cases o with
  | asyncResolve thenCallbackThrew =>
    cases thenCallbackThrew <;>
      simp [completionSignals, runSignals, proceedCall, h] <;> omega
  | syncThrow =>
    simp [completionSignals, runSignals, proceedCall, h]
    omega
  | syncReturn =>
    simp [completionSignals, runSignals, proceedCall, h]
    omega
  | asyncReject =>
    simp [completionSignals, runSignals, proceedCall, h]
    omega

/-- Witness for C1: the double-signal outcome (resolution whose `.then`
callback throws, triggering the chained `.catch`) on a fresh latch
increments `completed` once and `failed` not at all. -/
theorem consumer_completion_exactly_once_witness :
    (ProceedState.mk false 0 0).hasBeenCalled = false ∧
    ((runSignals ⟨false, 0, 0⟩ (completionSignals (.asyncResolve true))).completed +
          (runSignals ⟨false, 0, 0⟩ (completionSignals (.asyncResolve true))).failed
        = (ProceedState.mk false 0 0).completed + (ProceedState.mk false 0 0).failed + 1 ∧
      ((runSignals ⟨false, 0, 0⟩ (completionSignals (.asyncResolve true))).failed
          = (ProceedState.mk false 0 0).failed + 1 ↔
        (completionSignals (.asyncResolve true)).head? = some true) ∧
      ((runSignals ⟨false, 0, 0⟩ (completionSignals (.asyncResolve true))).completed
          = (ProceedState.mk false 0 0).completed + 1 ↔
        (completionSignals (.asyncResolve true)).head? = some false)) :=
  ⟨rfl, consumer_completion_exactly_once (.asyncResolve true) ⟨false, 0, 0⟩ rfl⟩

/-- Claim C2 (code bug): the comparator `priorityAndEnqueuedTime` never
returns a negative direction — the typo `sort.moveCloserToFront` (the
constant object only defines `moveCloserToStart`) makes it yield
`undefined`, which `Array.prototype.sort` coerces to `0` — so the sort
never moves a higher-priority entry forward. Concretely, for items
enqueued with priorities 1, 2, 3 (the spec's first scenario, and the
repo's own test), the dequeue order is the enqueue order
`["Hello", "World", "!"]`, not the claimed `["!", "World", "Hello"]`. -/
theorem priority_dequeue_order_bug :
    drainPQ 3 ((((PriorityQueue.empty : PriorityQueue String).enqueue
            "Hello" { priority := some 1 } 0).enqueue
            "World" { priority := some 2 } 1).enqueue
            "!" { priority := some 3 } 2)
        = ["Hello", "World", "!"] ∧
    (∀ a b : PQEntry String, 0 ≤ sortCompare priorityAndEnqueuedTime a b) := by
  constructor
  · rfl
  · intro a b
    unfold sortCompare priorityAndEnqueuedTime higherMovesTowardsFront lowerMovesTowardsFront
    split_ifs <;> simp [sortDirections]

/-- Claim C3 (code bug): `off(eventName, handler)` as written keeps
exactly the matching registrations and removes every other one — the
exact inverse of removal. On subscriptions `[(idle, 1), (error, 2)]`,
`off(error, 2)` leaves `[(error, 2)]` where the spec requires
`[(idle, 1)]` (computed by `offSpec`); a subsequent emit of `idle`
invokes nobody and an emit of `error` still invokes the supposedly
removed handler. -/
theorem off_inverts_removal_bug :
    offFn [{ event := .idle, handler := 1 }, { event := .error, handler := 2 }] .error 2
        = [{ event := .error, handler := 2 }] ∧
    offSpec [{ event := .idle, handler := 1 }, { event := .error, handler := 2 }] .error 2
        = [{ event := .idle, handler := 1 }] ∧
    emitHandlers (offFn [{ event := .idle, handler := 1 },
        { event := .error, handler := 2 }] .error 2) .idle = [] ∧
    emitHandlers (offFn [{ event := .idle, handler := 1 },
        { event := .error, handler := 2 }] .error 2) .error = [2] := by
  decide

/-- Claim C4 (counterexample): a `.then`-accepting value that is not an
instance of the configured `options.Promise` is NOT awaited — `handle`
treats it as an immediate synchronous success — refuting the claim that
classification is by structural `.then` capability. -/
theorem thenable_not_awaited :
    hasThenMethod Returned.thenable = true ∧
    handleClassify (Except.ok Returned.thenable) = HandleAction.terminate false := by
  decide

/-- Claim C4 (amended): `handle` classifies a returned value by the
nominal test `returned instanceof this.options.Promise` (a configurable
but concrete class), not by structural `.then` capability: a value is
awaited exactly when it is an instance of the configured promise class,
and every other value — `.then`-accepting or not — completes immediately
as a synchronous success. -/
theorem awaited_iff_instanceof (v : Returned) :
    (handleClassify (Except.ok v) = HandleAction.awaitSettlement ↔
        instanceofOptionsPromise v = true) ∧
    (handleClassify (Except.ok v) = HandleAction.terminate false ↔
        instanceofOptionsPromise v = false) := by
  cases v <;> simp [handleClassify, instanceofOptionsPromise]

/-- Claim C5: in every reachable scheduler state under a positive
`concurrent` limit, the number of pending consumers (`stats.pending`)
never exceeds `concurrent`: `start` tops up only to the remaining slack
and `_terminateConsumer` replaces at most the consumer it retires. -/
theorem pending_le_concurrent (cfg : CQConfig) (s : CQState) (hr : Reach cfg s)
    (hc : 0 < cfg.concurrent) :
    (s.pending.length : Int) ≤ cfg.concurrent := by
  induction hr with
  | init a =>
    cases a <;>
      simp [constructorState, emptyState, startFn_spec, spawnCount] <;> omega
  | enqueue ts _ ih =>
    simp only [enqueueFn]
    split
    · exact startFn_pending_le _ _ ih
    · exact ih
  | start _ ih => exact startFn_pending_le _ _ ih
  | stop _ ih => exact ih
  | onCall e h _ ih => exact ih
  | offCall e h _ ih => exact ih
  | fire i _ ih =>
    calc ((fireConsumer _ i).pending.length : Int)
        ≤ _ := by exact_mod_cast fireConsumer_pending_le _ i
      _ ≤ cfg.concurrent := ih
  | settle i _ ih =>
    calc ((settleConsumer _ i).pending.length : Int)
        ≤ _ := by exact_mod_cast settleConsumer_pending_le _ i
      _ ≤ cfg.concurrent := ih

/-- Witness for C5 at the constructor state with `concurrent = 2`. -/
theorem pending_le_concurrent_witness :
    0 < (CQConfig.mk 2).concurrent ∧
    ((constructorState ⟨2⟩ true).pending.length : Int) ≤ (CQConfig.mk 2).concurrent :=
  ⟨by decide, pending_le_concurrent ⟨2⟩ _ (Reach.init true) (by decide)⟩

/-- Claim C6 (counterexample): a reachable run in which the scheduler is
stopped while one task is in flight with an empty store, and the task's
completion — the Draining-to-Stopped transition — DOES emit `idle`:
`_terminateConsumer` checks only `isIdle`, never `isRunning`. -/
theorem idle_emitted_while_stopped :
    Reach ⟨1⟩ (fireConsumer (stopFn (enqueueFn ⟨1⟩ (constructorState ⟨1⟩ true)
        [TaskBehavior.returns Returned.plain])) 0) ∧
    (fireConsumer (stopFn (enqueueFn ⟨1⟩ (constructorState ⟨1⟩ true)
        [TaskBehavior.returns Returned.plain])) 0).isRunning = false ∧
    (fireConsumer (stopFn (enqueueFn ⟨1⟩ (constructorState ⟨1⟩ true)
        [TaskBehavior.returns Returned.plain])) 0).queue = [] ∧
    (fireConsumer (stopFn (enqueueFn ⟨1⟩ (constructorState ⟨1⟩ true)
        [TaskBehavior.returns Returned.plain])) 0).pending = [] ∧
    (fireConsumer (stopFn (enqueueFn ⟨1⟩ (constructorState ⟨1⟩ true)
        [TaskBehavior.returns Returned.plain])) 0).events = [EventType.idle] := by
  refine ⟨Reach.fire 0 (Reach.stop (Reach.enqueue _ (Reach.init true))), ?_, ?_, ?_, ?_⟩ <;>
    decide

/-- Claim C6 (amended): `_terminateConsumer` emits `idle` whenever the
consumer it retires leaves no queued and no pending work, regardless of
`isRunning` — so draining to empty while stopped also emits `idle`. -/
theorem terminate_emits_idle_regardless_of_running (s : CQState) (i : Nat) (b : Bool)
    (hq : s.queue = []) (hp : s.pending.length = 1) (hi : i < s.pending.length) :
    (terminateConsumer s i b).events = s.events ++ [EventType.idle] := by
  have hi0 : i = 0 := by omega
  subst hi0
  match hpl : s.pending with
  | [] => rw [hpl] at hp; simp at hp
  | c :: rest =>
    have hrest : rest = [] := by rw [hpl] at hp; simpa using hp
    subst hrest
    simp only [terminateConsumer]
    cases b <;> simp [CQState.isIdle, emitFn, hq, hpl]

/-- Witness for C6 amended: a stopped state with one in-flight consumer
and an empty store; terminating it emits `idle`. -/
theorem terminate_emits_idle_regardless_of_running_witness :
    (CQState.mk [] [mkScheduled (TaskBehavior.returns Returned.plain)] false [] 0 0 []).queue
        = [] ∧
    (CQState.mk [] [mkScheduled (TaskBehavior.returns Returned.plain)] false [] 0 0
        []).pending.length = 1 ∧
    0 < (CQState.mk [] [mkScheduled (TaskBehavior.returns Returned.plain)] false [] 0 0
        []).pending.length ∧
    (terminateConsumer (CQState.mk [] [mkScheduled (TaskBehavior.returns Returned.plain)]
        false [] 0 0 []) 0 false).events
      = (CQState.mk [] [mkScheduled (TaskBehavior.returns Returned.plain)] false [] 0 0
        []).events ++ [EventType.idle] :=
  ⟨rfl, rfl, by decide,
    terminate_emits_idle_regardless_of_running
      (CQState.mk [] [mkScheduled (TaskBehavior.returns Returned.plain)] false [] 0 0 [])
      0 false rfl rfl (by decide)⟩

/-- Claim C7 (counterexample): passing two tasks in one variadic
`enqueue` call through to a `PriorityQueue`-backed store grows the store
by one, not two: `PriorityQueue.enqueue(item, opts)` binds the second
task to its options parameter and never stores it. -/
theorem variadic_enqueue_priority_drops_tasks :
    (enqueueSpreadPQ (PriorityQueue.empty : PriorityQueue Nat) 1 [2] 0).size = 1 ∧
    ¬ (enqueueSpreadPQ (PriorityQueue.empty : PriorityQueue Nat) 1 [2] 0).size = 2 := by
  decide

/-- Claim C7 (amended): `GenericQueue.enqueue(...args)` appends every
argument in call order and grows `size` by the argument count; but a
variadic call forwarded to `PriorityQueue.enqueue` stores exactly one
entry — the first task, with default options — so the scheduler's
`enqueue(...tasks)` stores every task only with the FIFO store, not with
the priority store. -/
theorem store_enqueue_amended {α : Type} (g : GenericQueue α) (args : List α)
    (q : PriorityQueue α) (t : α) (rest : List α) (now : Int) :
    (g.enqueue args)._queue = g._queue ++ args ∧
    (g.enqueue args).size = g.size + args.length ∧
    (enqueueSpreadPQ q t rest now).size = q.size + 1 ∧
    (enqueueSpreadPQ q t rest now)._queue
      = q._queue ++ [{ item := t, options := { priority := 0, enqueuedTime := now } }] := by
  refine ⟨rfl, ?_, ?_, rfl⟩ <;>
    simp [GenericQueue.enqueue, GenericQueue.size, enqueueSpreadPQ,
      PriorityQueue.enqueue, PriorityQueue.size]

/-- Claim C8: `stop()` sets the running flag to `false` and changes
nothing else — store, pending consumers, counters, subscriptions and
emission log are untouched — and an `enqueue` issued after `stop()` only
appends to the store, spawning no consumer. -/
theorem stop_frame (cfg : CQConfig) (s : CQState) (ts : List TaskBehavior) :
    (stopFn s).isRunning = false ∧
    (stopFn s).queue = s.queue ∧
    (stopFn s).pending = s.pending ∧
    (stopFn s).subscriptions = s.subscriptions ∧
    (stopFn s).completed = s.completed ∧
    (stopFn s).failed = s.failed ∧
    (stopFn s).events = s.events ∧
    enqueueFn cfg (stopFn s) ts = { s with isRunning := false, queue := s.queue ++ ts } := by
  refine ⟨rfl, rfl, rfl, rfl, rfl, rfl, rfl, ?_⟩
  simp [enqueueFn, stopFn]

/-- Claim C9 (counterexample): constructing with `concurrent: 0` is
accepted unchanged — no clamping, no failure — and after enqueuing a
task (with the queue auto-started, and even after an explicit extra
`start()`), the task sits in the store while no consumer is ever
spawned. -/
theorem nonpositive_concurrent_accepted :
    mkOptions (some 0) = { concurrent := 0 } ∧
    (enqueueFn (mkOptions (some 0)) (constructorState (mkOptions (some 0)) true)
        [TaskBehavior.returns Returned.plain]).queue.length = 1 ∧
    (enqueueFn (mkOptions (some 0)) (constructorState (mkOptions (some 0)) true)
        [TaskBehavior.returns Returned.plain]).pending = [] ∧
    (startFn (mkOptions (some 0)) (enqueueFn (mkOptions (some 0))
        (constructorState (mkOptions (some 0)) true)
        [TaskBehavior.returns Returned.plain])).pending = [] := by
  decide

/-- Claim C9 (amended): the constructor performs no validation of
`concurrent`; under any non-positive value every reachable state has no
pending consumer, zero completed and failed counts, and an empty
emission log — enqueued tasks are stored but never consumed. -/
theorem nonpositive_concurrent_never_spawns (cfg : CQConfig) (s : CQState)
    (hr : Reach cfg s) (hc : cfg.concurrent ≤ 0) :
    s.pending = [] ∧ s.completed = 0 ∧ s.failed = 0 ∧ s.events = [] := by
  induction hr with
  | init a =>
    cases a
    · exact ⟨rfl, rfl, rfl, rfl⟩
    · rw [constructorState, if_pos rfl, startFn_noSpawn cfg emptyState hc rfl]
      exact ⟨rfl, rfl, rfl, rfl⟩
  | enqueue ts _ ih =>
    obtain ⟨hp, hco, hf, he⟩ := ih
    simp only [enqueueFn]
    split
    · rw [startFn_noSpawn cfg _ hc (by exact hp)]
      exact ⟨hp, hco, hf, he⟩
    · exact ⟨hp, hco, hf, he⟩
  | start _ ih =>
    obtain ⟨hp, hco, hf, he⟩ := ih
    rw [startFn_noSpawn cfg _ hc hp]
    exact ⟨hp, hco, hf, he⟩
  | stop _ ih => exact ih
  | onCall e h _ ih => exact ih
  | offCall e h _ ih => exact ih
  | fire i _ ih =>
    obtain ⟨hp, hco, hf, he⟩ := ih
    unfold fireConsumer
    rw [hp]
    simp [hp, hco, hf, he]
  | settle i _ ih =>
    obtain ⟨hp, hco, hf, he⟩ := ih
    unfold settleConsumer
    rw [hp]
    simp [hp, hco, hf, he]

/-- Witness for C9 amended at the auto-started constructor state with
`concurrent = 0`. -/
theorem nonpositive_concurrent_never_spawns_witness :
    (CQConfig.mk 0).concurrent ≤ 0 ∧
    ((constructorState ⟨0⟩ true).pending = [] ∧ (constructorState ⟨0⟩ true).completed = 0 ∧
      (constructorState ⟨0⟩ true).failed = 0 ∧ (constructorState ⟨0⟩ true).events = []) :=
  ⟨by decide, nonpositive_concurrent_never_spawns ⟨0⟩ _ (Reach.init true) (by decide)⟩

/-- Claim C10: enqueuing while stopped only appends the tasks to the
store (so `stats.queued` grows by their number) with every other field
unchanged and no consumer spawned; the next `start()` then dispatches
from the front of the store — the spawned consumers take the first
`spawnCount` stored tasks in order, the enqueued-while-stopped tasks
among them. -/
theorem enqueue_while_stopped (cfg : CQConfig) (s : CQState) (ts : List TaskBehavior)
    (hstop : s.isRunning = false) :
    enqueueFn cfg s ts = { s with queue := s.queue ++ ts } ∧
    startFn cfg (enqueueFn cfg s ts) =
      { s with isRunning := true,
               queue := (s.queue ++ ts).drop
                  (spawnCount cfg { s with queue := s.queue ++ ts }),
               pending := s.pending ++ ((s.queue ++ ts).take
                  (spawnCount cfg { s with queue := s.queue ++ ts })).map mkScheduled } := by
  have h1 : enqueueFn cfg s ts = { s with queue := s.queue ++ ts } := by
    simp [enqueueFn, hstop]
  refine ⟨h1, ?_⟩
  rw [h1, startFn_spec]

/-- Witness for C10: from the stopped empty constructor state with
`concurrent = 1`, enqueuing two tasks stores both, and `start()` then
spawns one consumer holding the first task. -/
theorem enqueue_while_stopped_witness :
    emptyState.isRunning = false ∧
    (enqueueFn ⟨1⟩ emptyState [TaskBehavior.returns Returned.plain, TaskBehavior.throws]
        = { emptyState with
            queue := emptyState.queue ++ [TaskBehavior.returns Returned.plain,
              TaskBehavior.throws] } ∧
     startFn ⟨1⟩ (enqueueFn ⟨1⟩ emptyState [TaskBehavior.returns Returned.plain,
          TaskBehavior.throws]) =
        { emptyState with
          isRunning := true,
          queue := (emptyState.queue ++ [TaskBehavior.returns Returned.plain,
              TaskBehavior.throws]).drop
            (spawnCount ⟨1⟩ { emptyState with
              queue := emptyState.queue ++ [TaskBehavior.returns Returned.plain,
                TaskBehavior.throws] }),
          pending := emptyState.pending ++ ((emptyState.queue ++
              [TaskBehavior.returns Returned.plain, TaskBehavior.throws]).take
            (spawnCount ⟨1⟩ { emptyState with
              queue := emptyState.queue ++ [TaskBehavior.returns Returned.plain,
                TaskBehavior.throws] })).map mkScheduled }) :=
  ⟨rfl, enqueue_while_stopped ⟨1⟩ emptyState
    [TaskBehavior.returns Returned.plain, TaskBehavior.throws] rfl⟩

end ProcessQueue
